import Mathlib

/-!
Verification of the loadBalancer repository (Go): a layer-7 round-robin
reverse proxy.  The Go sources are embedded shallowly:

* `urlParse` models the fragment of Go's `net/url.Parse` exercised by this
  repository (scheme extraction, control-byte rejection, authority/host
  validation, percent-escape validation, first-segment-colon rule);
* `New` embeds `lb.New` (internal/lb), `NewLB` embeds `NewLB` (cmd/app/main.go);
* `getNextBackend` embeds the atomic round-robin selection with its 64-bit
  counter wraparound;
* `ServeHTTP` embeds the forwarding handler with the upstream call outcome
  abstracted as a parameter (`DoOutcome`);
* `Run` embeds `server.Run` with the signal/listener events and the
  `http.Server.Shutdown` outcome abstracted as parameters.

Machine integers are modelled as `Nat` with explicit reduction modulo `2 ^ 64`
where Go uses `uint64`.
-/

/-- Byte is a control byte in Go's `stringContainsCTLByte`: below 0x20 or DEL. -/
def ctlByte (c : Char) : Bool := c.toNat < 32 || c.toNat == 127

/-- Hexadecimal digit test, as Go's `ishex`. -/
def isHexDigit (c : Char) : Bool :=
  c.isDigit || (65 ≤ c.toNat && c.toNat ≤ 70) || (97 ≤ c.toNat && c.toNat ≤ 102)

/-- Value of a hexadecimal digit, as Go's `unhex`. -/
def hexVal (c : Char) : Nat :=
  if c.isDigit then c.toNat - 48
  else if 97 ≤ c.toNat && c.toNat ≤ 102 then c.toNat - 97 + 10
  else if 65 ≤ c.toNat && c.toNat ≤ 70 then c.toNat - 65 + 10
  else 0

/-- Split a character list at the first occurrence of `c`
(Go `strings.Cut`): returns the part before and, when found, the part after. -/
def splitAtFirst (c : Char) : List Char → List Char × Option (List Char)
  | [] => ([], none)
  | x :: xs =>
    if x = c then ([], some xs)
    else
      let (a, b) := splitAtFirst c xs
      (x :: a, b)

/-- Split a character list at the last occurrence of `c`
(Go `strings.LastIndex`): returns the parts before and after when found. -/
def lastIndexSplit (c : Char) : List Char → Option (List Char × List Char)
  | [] => none
  | x :: xs =>
    match lastIndexSplit c xs with
    | some (a, b) => some (x :: a, b)
    | none => if x = c then some ([], xs) else none

/-- Number of occurrences of a character (Go `strings.Count`). -/
def countChar (c : Char) (s : List Char) : Nat := (s.filter (· = c)).length

/-- Character that Go's `shouldEscape` leaves unescaped in a host
(`encodeHost` mode): alphanumerics, unreserved marks, the
sub-delimiters and the extra set Go allows in hosts, plus non-ASCII bytes. -/
def validHostChar (c : Char) : Bool :=
  c.isAlphanum || c.toNat ≥ 128 ||
  [33, 34, 36, 38, 39, 40, 41, 42, 43, 44, 45, 46, 58, 59, 60, 61, 62,
   91, 93, 95, 126].contains c.toNat

/-- Character allowed in the userinfo component by Go's `validUserinfo`. -/
def validUserinfoChar (c : Char) : Bool :=
  c.isAlphanum ||
  [45, 46, 95, 58, 126, 33, 36, 38, 39, 40, 41, 42, 43, 44, 59, 61, 37,
   64].contains c.toNat

/-- Percent-escape validation for path, query-free components
(Go `unescape` in `encodePath` mode, error cases only): every `%` must be
followed by two hexadecimal digits. -/
def validEscapes : List Char → Bool
  | [] => true
  | c :: rest =>
    if c = '%' then
      match rest with
      | a :: b :: rest2 => isHexDigit a && isHexDigit b && validEscapes rest2
      | _ => false
    else validEscapes rest

/-- Host validation as in Go's `unescape` in `encodeHost` mode: each plain
character must be a valid host character; each `%`-escape must be two hex
digits and denote a non-ASCII byte (first digit at least 8) or be `%25`. -/
def hostUnescapeOk : List Char → Bool
  | [] => true
  | c :: rest =>
    if c = '%' then
      match rest with
      | a :: b :: rest2 =>
        isHexDigit a && isHexDigit b && (hexVal a ≥ 8 || (a = '2' && b = '5')) &&
        hostUnescapeOk rest2
      | _ => false
    else validHostChar c && hostUnescapeOk rest

/-- Optional-port validation (Go `validOptionalPort`): empty, or a colon
followed by decimal digits only. -/
def validOptionalPort : List Char → Bool
  | [] => true
  | c :: rest => c = ':' && rest.all (·.isDigit)

/-- Model of Go's `url.URL` restricted to the fields this repository touches.
`oPart` is Go's `URL.Opaque`; `path` holds the path in its raw (escaped)
form, which coincides with the decoded form for every URL this program
configures (no percent-escapes). -/
structure URL where
  scheme : String
  oPart : String
  userinfo : Option String
  host : String
  path : String
  forceQuery : Bool
  rawQuery : String
  fragment : String
  omitHost : Bool
deriving DecidableEq

/-- The URL with every component empty. -/
def emptyURL : URL :=
  { scheme := "", oPart := "", userinfo := none, host := "", path := "",
    forceQuery := false, rawQuery := "", fragment := "", omitHost := false }

instance : Inhabited URL := ⟨emptyURL⟩

/-- Scheme scanner of Go's `getScheme`: `acc` holds the scheme characters
read so far (in reverse).  Returns `none` when the string has no scheme,
`some (scheme, rest)` when a `scheme:` prefix was cut off, and an error for
a leading colon. -/
def getSchemeAux (acc : List Char) : List Char → Except String (Option (List Char × List Char))
  | [] => .ok none
  | c :: rest =>
    if c.isAlpha then getSchemeAux (c :: acc) rest
    else if c.isDigit || c.toNat == 43 || c.toNat == 45 || c.toNat == 46 then
      if acc = [] then .ok none else getSchemeAux (c :: acc) rest
    else if c.toNat == 58 then
      if acc = [] then .error "missing protocol scheme"
      else .ok (some (acc.reverse, rest))
    else .ok none

/-- Go's `getScheme`: returns the scheme (possibly empty) and the remainder. -/
def getScheme (raw : List Char) : Except String (List Char × List Char) :=
  match getSchemeAux [] raw with
  | .error e => .error e
  | .ok none => .ok ([], raw)
  | .ok (some (sch, rest)) => .ok (sch, rest)

/-- Go's `parseHost`: validates a bracketed IPv6 literal or an optional
`:port` suffix, then the host characters (`unescape` in `encodeHost` mode). -/
def parseHost (h : List Char) : Except String String :=
  match h with
  | '[' :: _ =>
    match lastIndexSplit ']' h with
    | none => .error "missing ] in host"
    | some (_, colonPort) =>
      if validOptionalPort colonPort then
        if hostUnescapeOk h then .ok h.asString else .error "invalid character in host name"
      else .error "invalid port after host"
  | _ =>
    match lastIndexSplit ':' h with
    | some (_, afterColon) =>
      if validOptionalPort (':' :: afterColon) then
        if hostUnescapeOk h then .ok h.asString else .error "invalid character in host name"
      else .error "invalid port after host"
    | none =>
      if hostUnescapeOk h then .ok h.asString else .error "invalid character in host name"

/-- Go's `parseAuthority`: split off userinfo at the last `@`, validate it,
and validate the host. -/
def parseAuthority (authority : List Char) : Except String (Option String × String) :=
  match lastIndexSplit '@' authority with
  | none =>
    match parseHost authority with
    | .error e => .error e
    | .ok host => .ok (none, host)
  | some (userinfo, hostPart) =>
    match parseHost hostPart with
    | .error e => .error e
    | .ok host =>
      if userinfo.all validUserinfoChar && validEscapes userinfo then
        .ok (some userinfo.asString, host)
      else .error "net/url: invalid userinfo"

/-- Does the list start with the given prefix? -/
def listStartsWith (p s : List Char) : Bool := s.take p.length = p

/-- Body of Go's `url.parse` with `viaRequest = false`, after the fragment
has been split off by `Parse`. -/
def parseMain (raw : List Char) : Except String URL :=
  if raw.any ctlByte then .error "net/url: invalid control character in URL"
  else if raw = ['*'] then .ok { emptyURL with path := "*" }
  else
    match getScheme raw with
    | .error e => .error e
    | .ok (schemeChars, afterScheme) =>
      let scheme := (schemeChars.map Char.toLower).asString
      let (rest, forceQuery, rawQuery) :=
        if afterScheme.getLast? = some '?' ∧ countChar '?' afterScheme = 1 then
          (afterScheme.dropLast, true, ([] : List Char))
        else
          match splitAtFirst '?' afterScheme with
          | (before, some after) => (before, false, after)
          | (before, none) => (before, false, [])
      if ¬ listStartsWith ['/'] rest then
        if scheme ≠ "" then
          .ok { emptyURL with scheme := scheme, oPart := rest.asString,
                              forceQuery := forceQuery, rawQuery := rawQuery.asString }
        else
          if ((splitAtFirst '/' rest).1).contains ':' then
            .error "first path segment in URL cannot contain colon"
          else if validEscapes rest then
            .ok { emptyURL with path := rest.asString,
                                forceQuery := forceQuery, rawQuery := rawQuery.asString }
          else .error "invalid URL escape"
      else
        if (scheme ≠ "" ∨ ¬ listStartsWith ['/', '/', '/'] rest) ∧
            listStartsWith ['/', '/'] rest then
          let afterSlashes := rest.drop 2
          let (authority, rest2) :=
            match splitAtFirst '/' afterSlashes with
            | (a, some b) => (a, '/' :: b)
            | (a, none) => (a, ([] : List Char))
          match parseAuthority authority with
          | .error e => .error e
          | .ok (userinfo, host) =>
            if validEscapes rest2 then
              .ok { emptyURL with scheme := scheme, userinfo := userinfo, host := host,
                                  path := rest2.asString, forceQuery := forceQuery,
                                  rawQuery := rawQuery.asString }
            else .error "invalid URL escape"
        else
          if validEscapes rest then
            .ok { emptyURL with scheme := scheme, path := rest.asString,
                                forceQuery := forceQuery, rawQuery := rawQuery.asString,
                                omitHost := scheme ≠ "" }
          else .error "invalid URL escape"

/-- Model of Go's `url.Parse`: cut the fragment at the first `#`, run
`parse`, then validate and attach the fragment. -/
def urlParse (rawURL : String) : Except String URL :=
  match splitAtFirst '#' rawURL.data with
  | (before, none) => parseMain before
  | (before, some frag) =>
    match parseMain before with
    | .error e => .error e
    | .ok u =>
      if validEscapes frag then .ok { u with fragment := frag.asString }
      else .error "invalid URL escape"

/-- Model of Go's `URL.String` for URLs as stored by `urlParse` (components
kept in raw form; Go's re-escaping is the identity on them). -/
def urlString (u : URL) : String :=
  let schemePart := if u.scheme ≠ "" then u.scheme ++ ":" else ""
  let mid :=
    if u.oPart ≠ "" then u.oPart
    else
      let auth :=
        if u.scheme ≠ "" ∨ u.host ≠ "" ∨ u.userinfo.isSome then
          if u.omitHost ∧ u.host = "" ∧ u.userinfo.isNone then ""
          else
            (if u.host ≠ "" ∨ u.path ≠ "" ∨ u.userinfo.isSome then "//" else "") ++
            (match u.userinfo with | some ui => ui ++ "@" | none => "") ++ u.host
        else ""
      let sep := if u.path ≠ "" ∧ u.path.front ≠ '/' ∧ u.host ≠ "" then "/" else ""
      auth ++ sep ++ u.path
  schemePart ++ mid ++
    (if u.forceQuery ∨ u.rawQuery ≠ "" then "?" ++ u.rawQuery else "") ++
    (if u.fragment ≠ "" then "#" ++ u.fragment else "")

deriving instance DecidableEq for Except

/-- Upstream `http.Client` transport settings, fixed at construction
in both `lb.New` and `NewLB`. -/
structure ClientConfig where
  maxIdleConns : Nat
  maxIdleConnsPerHost : Nat
  idleConnTimeoutSeconds : Nat
  dialTimeoutSeconds : Nat
  dialKeepAliveSeconds : Nat
deriving DecidableEq

/-- The transport both constructors build:
`MaxIdleConns 30, MaxIdleConnsPerHost 30, IdleConnTimeout 90s,
Dialer{Timeout 5s, KeepAlive 10s}`. -/
def lbClient : ClientConfig :=
  { maxIdleConns := 30, maxIdleConnsPerHost := 30, idleConnTimeoutSeconds := 90,
    dialTimeoutSeconds := 5, dialKeepAliveSeconds := 10 }

/-- The Go `LoadBalancer` struct: parsed backends, the shared `uint64`
selection counter (modelled as a `Nat` kept below `2 ^ 64`), the per-request
timeout in seconds, and the upstream client. -/
structure LoadBalancer where
  backends : List URL
  counter : Nat
  timeout : Nat
  client : ClientConfig
deriving DecidableEq

/-- Construction errors: Go returns distinguishable error values; the exact
message strings are rendered by `ConfigErr.message`. -/
inductive ConfigErr where
  | tooFewBackends
  | invalidBackendURL (b : String) (e : String)
  | badScheme (b : String)
deriving DecidableEq

/-- The Go error message carried by each `ConfigErr`. -/
def ConfigErr.message : ConfigErr → String
  | .tooFewBackends => "at least 2 backends are required for load balancing"
  | .invalidBackendURL b e => "invalid backend URL " ++ b ++ ": " ++ e
  | .badScheme b => "backend " ++ b ++ " must use http/https"

/-- The parse loop of `lb.New` (internal/lb/lb.go): parse each address in
order; reject a parse failure and any scheme other than http/https. -/
def parseBackendsNew : List String → Except ConfigErr (List URL)
  | [] => .ok []
  | b :: rest =>
    match urlParse b with
    | .error e => .error (.invalidBackendURL b e)
    | .ok u =>
      if u.scheme ≠ "http" ∧ u.scheme ≠ "https" then .error (.badScheme b)
      else
        match parseBackendsNew rest with
        | .error e => .error e
        | .ok us => .ok (u :: us)

/-- The parse loop of `NewLB` (cmd/app/main.go): parse each address in
order; reject only a parse failure — there is no scheme check. -/
def parseBackendsNewLB : List String → Except ConfigErr (List URL)
  | [] => .ok []
  | b :: rest =>
    match urlParse b with
    | .error e => .error (.invalidBackendURL b e)
    | .ok u =>
      match parseBackendsNewLB rest with
      | .error e => .error e
      | .ok us => .ok (u :: us)

/-- Default per-request timeout, 5 seconds, used when no override is given. -/
def defaultTimeoutSeconds : Nat := 5

/-- `lb.New` (internal/lb/lb.go): require at least two backend strings,
parse and validate them (scheme must be http/https), and build the
`LoadBalancer` with the counter at zero. -/
def New (backends : List String) (timeout : Option Nat) : Except ConfigErr LoadBalancer :=
  if backends.length < 2 then .error .tooFewBackends
  else
    match parseBackendsNew backends with
    | .error e => .error e
    | .ok parsedURLs =>
      .ok { backends := parsedURLs, counter := 0,
            timeout := timeout.getD defaultTimeoutSeconds, client := lbClient }

/-- `NewLB` (cmd/app/main.go): require at least two backend strings and
parse them; unlike `lb.New` it performs no scheme validation. -/
def NewLB (backends : List String) (timeout : Option Nat) : Except ConfigErr LoadBalancer :=
  if backends.length < 2 then .error .tooFewBackends
  else
    match parseBackendsNewLB backends with
    | .error e => .error e
    | .ok parsedURLs =>
      .ok { backends := parsedURLs, counter := 0,
            timeout := timeout.getD defaultTimeoutSeconds, client := lbClient }

/-- Modulus of the Go `uint64` counter. -/
def W64 : Nat := 2 ^ 64

/-- Index computation of `getNextBackend`:
`idx := atomic.AddUint64(&lb.counter, 1) - 1; idx % uint64(len(lb.backends))`.
The increment and the subtraction wrap modulo `2 ^ 64`.  Returns the chosen
index and the balancer with the updated counter. -/
def nextIdx (lb : LoadBalancer) : Nat × LoadBalancer :=
  let newCounter := (lb.counter + 1) % W64
  let idx := (newCounter + (W64 - 1)) % W64
  (idx % lb.backends.length, { lb with counter := newCounter })

/-- `getNextBackend`: return `lb.backends[idx % len]` and advance the
counter.  (For a constructed balancer the index is always in bounds —
see the safety theorem; `getD` only supplies a default the code never uses.) -/
def getNextBackend (lb : LoadBalancer) : URL × LoadBalancer :=
  let (i, lb2) := nextIdx lb
  (lb.backends.getD i emptyURL, lb2)

/-- Balancer state after `k` serial calls of `getNextBackend`. -/
def serialState (lb : LoadBalancer) : Nat → LoadBalancer
  | 0 => lb
  | k + 1 => (getNextBackend (serialState lb k)).2

/-- Index selected by the `k`-th (0-indexed) serial call of `getNextBackend`. -/
def serialIdx (lb : LoadBalancer) (k : Nat) : Nat :=
  (nextIdx (serialState lb k)).1

/-- Backend returned by the `k`-th (0-indexed) serial call of `getNextBackend`. -/
def serialBackend (lb : LoadBalancer) (k : Nat) : URL :=
  (getNextBackend (serialState lb k)).1

/-- Go `http.Header`: a map from (canonical) header keys to value slices,
modelled as an association list with pairwise-distinct keys. -/
abbrev Headers := List (String × List String)

/-- `Header.Add` on the model: append the value to the key entry, or create
the entry when the key is absent.  (The keys in play are already in
canonical MIME form, on which Go's canonicalisation is the identity.) -/
def addHeader : Headers → String → String → Headers
  | [], k, v => [(k, [v])]
  | (k0, vs) :: rest, k, v =>
    if k0 = k then (k0, vs ++ [v]) :: rest
    else (k0, vs) :: addHeader rest k v

/-- The header-relay loop of `ServeHTTP`:
`for k, v := range resp.Header { for _, vv := range v { w.Header().Add(k, vv) } }`,
starting from the response writer's header map `dst`. -/
def copyHeaders (src : Headers) (dst : Headers) : Headers :=
  src.foldl (fun d kv => kv.2.foldl (fun d2 v => addHeader d2 kv.1 v) d) dst

/-- Token character of Go `net/http`'s `validMethod` / `isTokenRune`:
alphanumerics and the RFC 7230 token specials. -/
def isTokenChar (c : Char) : Bool :=
  c.isAlphanum ||
  [33, 35, 36, 37, 38, 39, 42, 43, 45, 46, 94, 95, 96, 124, 126].contains c.toNat

/-- Go `net/http` `validMethod`: nonempty and all token characters. -/
def validMethod (m : String) : Bool := m ≠ "" && m.data.all isTokenChar

/-- An incoming request as `ServeHTTP` reads it: method, the raw
`RequestURI` (path plus query string), header map, and body bytes. -/
structure InRequest where
  method : String
  requestURI : String
  headers : Headers
  body : List UInt8

/-- The outbound request `ServeHTTP` hands to `lb.client.Do`: the method,
the URL string passed to `http.NewRequestWithContext`, its parse, and the
header map installed by `req.Header = r.Header.Clone()`. -/
structure OutRequest where
  method : String
  urlStr : String
  url : URL
  headers : Headers
deriving DecidableEq

/-- `http.NewRequestWithContext(ctx, r.Method, target.String()+r.RequestURI, r.Body)`
followed by `req.Header = r.Header.Clone()`: default the empty method to GET,
validate the method, parse the URL, and clone the headers. -/
def buildOutbound (target : URL) (r : InRequest) : Except String OutRequest :=
  let urlStr := urlString target ++ r.requestURI
  let method := if r.method = "" then "GET" else r.method
  if ¬ validMethod method then .error ("net/http: invalid method " ++ method)
  else
    match urlParse urlStr with
    | .error e => .error e
    | .ok u => .ok { method := method, urlStr := urlStr, url := u, headers := r.headers }

/-- Outcome of the upstream call `lb.client.Do(req)`: either a response, or
an error whose `deadlineExceeded` flag is `errors.Is(err, context.DeadlineExceeded)`
(true exactly when the timeout-bound context deadline fired; connection
refused, DNS failure, reset and inbound-side cancellation all carry `false`). -/
inductive DoOutcome where
  | resp (status : Nat) (headers : Headers) (body : List UInt8)
  | fail (deadlineExceeded : Bool)

/-- What `ServeHTTP` writes to the response writer: `httpError msg code`
models `http.Error(w, msg, code)`; `relayed` models the header-copy loop,
`w.WriteHeader(resp.StatusCode)` and `io.Copy(w, resp.Body)`. -/
inductive SentResponse where
  | httpError (msg : String) (status : Nat)
  | relayed (status : Nat) (headers : Headers) (body : List UInt8)

/-- `ServeHTTP` (identical in internal/lb/lb.go and cmd/app/main.go): pick
the next backend, build the outbound request (500 on failure), issue the
upstream call — its outcome `oc` and the truncated elapsed seconds
`elapsedSeconds` are parameters — and classify: deadline exceeded → 504
with the elapsed seconds; any other error → 502; otherwise relay status,
headers and body.  Returns what was written and the updated balancer. -/
def ServeHTTP (lb : LoadBalancer) (r : InRequest) (oc : DoOutcome)
    (elapsedSeconds : Nat) : SentResponse × LoadBalancer :=
  let (target, lb2) := getNextBackend lb
  match buildOutbound target r with
  | .error _ => (.httpError "Failed to create request" 500, lb2)
  | .ok _ =>
    match oc with
    | .fail true =>
      (.httpError ("Backend request timed out after " ++ toString elapsedSeconds ++ "s")
        504, lb2)
    | .fail false => (.httpError "Service temporarily unavailable" 502, lb2)
    | .resp status hs body => (.relayed status (copyHeaders hs []) body, lb2)

/-- Event that ends the `select` in `server.Run`: a SIGINT/SIGTERM on the
signal channel, or a non-`ErrServerClosed` error from `ListenAndServe`
delivered on `errChan`. -/
inductive ServerEvent where
  | interrupted
  | listenFailed (e : String)

/-- Grace period handed to `context.WithTimeout` before `srv.Shutdown`:
5 seconds. -/
def shutdownGraceSeconds : Nat := 5

/-- `server.Run` (internal/server/server.go), with the blocking collaborators
abstracted: `ev` is the event that wins the `select`; `shutdownErr` is the
result of `srv.Shutdown(ctx)` under the 5-second context (`none` when every
in-flight request finished within the grace period, `some e` — the context
error — when the grace period elapsed first).  Returns the function's error
result (`none` = nil = clean stop and zero exit). -/
def Run (ev : ServerEvent) (shutdownErr : Option String) : Option String :=
  match ev with
  | .listenFailed e => some ("server failed: " ++ e)
  | .interrupted =>
    match shutdownErr with
    | some e => some ("shutdown error: " ++ e)
    | none => none

deriving instance DecidableEq for SentResponse

/-- Backends selected by `getNextBackend`, used in concrete checks. -/
def bs3 : List String := ["http://a", "http://b", "http://c"]

/-- The balancer `lb.New` builds over `bs3` (construction succeeds; see the
witnesses). -/
def lb3 : LoadBalancer :=
  (New bs3 none).toOption.getD
    { backends := [], counter := 0, timeout := 0, client := lbClient }

/-- A minimal well-formed incoming request used in concrete checks. -/
def req0 : InRequest :=
  { method := "GET", requestURI := "/x?q=1", headers := [("Cookie", ["c=1"])],
    body := [] }

/-- The outbound request `ServeHTTP` builds for `req0` on the concrete
balancer (construction succeeds; see the witnesses). -/
def outReq0 : OutRequest :=
  (buildOutbound (getNextBackend lb3).1 req0).toOption.getD
    { method := "", urlStr := "", url := emptyURL, headers := [] }

/-- Backend list that only `NewLB` accepts (`lb.New` rejects the ftp
scheme), used to exercise `NewLB`-built balancers in concrete checks. -/
def bsF : List String := ["ftp://x", "http://a"]

/-- The balancer `NewLB` builds over `bsF` (construction succeeds; see the
witnesses). -/
def lbF : LoadBalancer :=
  (NewLB bsF none).toOption.getD
    { backends := [], counter := 0, timeout := 0, client := lbClient }

lemma W64_eq : W64 = 18446744073709551616 := by norm_num [W64]

lemma serialState_backends (lb : LoadBalancer) :
    ∀ k, (serialState lb k).backends = lb.backends := by
  intro k
  induction k with
  | zero => rfl
  | succ k ih => simp [serialState, getNextBackend, nextIdx, ih]

lemma serialState_counter (lb : LoadBalancer) (hc : lb.counter < W64) :
    ∀ k, (serialState lb k).counter = (lb.counter + k) % W64 := by
  intro k
  induction k with
  | zero =>
    simp [serialState, Nat.mod_eq_of_lt hc]
  | succ k ih =>
    show ((getNextBackend (serialState lb k)).2).counter = _
    simp only [getNextBackend, nextIdx]
    rw [ih, W64_eq]
    omega

lemma serialIdx_eq (lb : LoadBalancer) (hc : lb.counter < W64) (k : Nat) :
    serialIdx lb k = ((lb.counter + k) % W64) % lb.backends.length := by
  have hcnt := serialState_counter lb hc k
  have hbk := serialState_backends lb k
  show (nextIdx (serialState lb k)).1 = _
  simp only [nextIdx]
  rw [hcnt, hbk]
  have h2 : (((lb.counter + k) % W64 + 1) % W64 + (W64 - 1)) % W64 =
      (lb.counter + k) % W64 := by
    rw [W64_eq]; omega
  rw [h2]

lemma serialBackend_eq (lb : LoadBalancer) (k : Nat) :
    serialBackend lb k = lb.backends.getD (serialIdx lb k) emptyURL := by
  simp [serialBackend, serialIdx, getNextBackend, serialState_backends lb k]

lemma parseBackendsNew_length : ∀ bs us,
    parseBackendsNew bs = .ok us → us.length = bs.length := by
  intro bs
  induction bs with
  | nil => intro us h; simp [parseBackendsNew] at h; simp [← h]
  | cons b rest ih =>
    intro us h
    simp only [parseBackendsNew] at h
    split at h
    · exact absurd h (by simp)
    · split at h
      · exact absurd h (by simp)
      · split at h
        · exact absurd h (by simp)
        · next us2 heq2 =>
          cases h
          simp [ih us2 heq2]

lemma parseBackendsNew_error_shape : ∀ bs e,
    parseBackendsNew bs = .error e → e ≠ ConfigErr.tooFewBackends := by
  intro bs
  induction bs with
  | nil => intro e h; simp [parseBackendsNew] at h
  | cons b rest ih =>
    intro e h
    simp only [parseBackendsNew] at h
    split at h
    · cases h; simp
    · split at h
      · cases h; simp
      · split at h
        · next e2 heq2 => cases h; exact ih _ heq2
        · exact absurd h (by simp)

lemma parseBackendsNewLB_error_shape : ∀ bs e,
    parseBackendsNewLB bs = .error e → e ≠ ConfigErr.tooFewBackends := by
  intro bs
  induction bs with
  | nil => intro e h; simp [parseBackendsNewLB] at h
  | cons b rest ih =>
    intro e h
    simp only [parseBackendsNewLB] at h
    split at h
    · cases h; simp
    · split at h
      · next e2 heq2 => cases h; exact ih _ heq2
      · exact absurd h (by simp)

lemma New_ok_shape (bs : List String) (t : Option Nat) (lb : LoadBalancer)
    (h : New bs t = .ok lb) :
    lb.counter = 0 ∧ lb.backends.length = bs.length ∧ 2 ≤ bs.length := by
  by_cases hl : bs.length < 2
  · simp [New, hl] at h
  · simp only [New, if_neg hl] at h
    split at h
    · exact absurd h (by simp)
    · next us heq =>
      cases h
      exact ⟨rfl, parseBackendsNew_length bs us heq, Nat.le_of_not_lt hl⟩

lemma parseBackendsNewLB_length : ∀ bs us,
    parseBackendsNewLB bs = .ok us → us.length = bs.length := by
  intro bs
  induction bs with
  | nil => intro us h; simp [parseBackendsNewLB] at h; simp [← h]
  | cons b rest ih =>
    intro us h
    simp only [parseBackendsNewLB] at h
    split at h
    · exact absurd h (by simp)
    · split at h
      · exact absurd h (by simp)
      · next us2 heq2 =>
        cases h
        simp [ih us2 heq2]

lemma NewLB_ok_shape (bs : List String) (t : Option Nat) (lb : LoadBalancer)
    (h : NewLB bs t = .ok lb) :
    lb.counter = 0 ∧ lb.backends.length = bs.length ∧ 2 ≤ bs.length := by
  by_cases hl : bs.length < 2
  · simp [NewLB, hl] at h
  · simp only [NewLB, if_neg hl] at h
    split at h
    · exact absurd h (by simp)
    · next us heq =>
      cases h
      exact ⟨rfl, parseBackendsNewLB_length bs us heq, Nat.le_of_not_lt hl⟩

@[simp] lemma except_isOk_ok {ε α : Type} (a : α) :
    (Except.ok a : Except ε α).isOk = true := rfl

@[simp] lemma except_isOk_error {ε α : Type} (e : ε) :
    (Except.error e : Except ε α).isOk = false := rfl

/-- A backend string that `lb.New` rejects: it fails to parse, or its
scheme is neither http nor https. -/
def badBackendStr (b : String) : Bool :=
  match urlParse b with
  | .error _ => true
  | .ok u => ¬ (u.scheme = "http" ∨ u.scheme = "https")

lemma parseBackendsNew_bad : ∀ bs b, b ∈ bs → badBackendStr b = true →
    (parseBackendsNew bs).isOk = false := by
  intro bs
  induction bs with
  | nil => intro b hb; simp at hb
  | cons b0 rest ih =>
    intro b hb hbad
    simp only [parseBackendsNew]
    split
    · simp
    · next u hp =>
      split
      · simp
      · next hs =>
        split
        · simp
        · next us hr =>
          rcases List.mem_cons.mp hb with hb0 | hbr
          · subst hb0
            simp only [badBackendStr, hp] at hbad
            rw [decide_eq_true_iff] at hbad
            push_neg at hs
            rcases Classical.em (u.scheme = "http") with h1 | h1
            · exact absurd (Or.inl h1) hbad
            · exact absurd (Or.inr (hs h1)) hbad
          · have := ih b hbr hbad
            rw [hr] at this
            simp at this

lemma parseBackendsNew_all_good : ∀ bs, (∀ b ∈ bs, badBackendStr b = false) →
    (parseBackendsNew bs).isOk = true := by
  intro bs
  induction bs with
  | nil => intro _; simp [parseBackendsNew]
  | cons b0 rest ih =>
    intro hall
    have hb0 := hall b0 (List.mem_cons_self b0 rest)
    simp only [parseBackendsNew]
    split
    · next e hp => simp [badBackendStr, hp] at hb0
    · next u hp =>
      simp only [badBackendStr, hp] at hb0
      rw [decide_eq_false_iff_not] at hb0
      push_neg at hb0
      split
      · next hs =>
        rcases Classical.em (u.scheme = "http") with h1 | h1
        · exact absurd h1 hs.1
        · exact absurd (hb0.resolve_left h1) hs.2
      · have := ih (fun b hb => hall b (List.mem_cons_of_mem b0 hb))
        split
        · next e hr => rw [hr] at this; simp at this
        · simp

lemma parseBackendsNewLB_all_parse : ∀ bs, (∀ b ∈ bs, (urlParse b).isOk = true) →
    (parseBackendsNewLB bs).isOk = true := by
  intro bs
  induction bs with
  | nil => intro _; simp [parseBackendsNewLB]
  | cons b0 rest ih =>
    intro hall
    have hb0 := hall b0 (List.mem_cons_self b0 rest)
    simp only [parseBackendsNewLB]
    split
    · next e hp => rw [hp] at hb0; simp at hb0
    · next u hp =>
      have := ih (fun b hb => hall b (List.mem_cons_of_mem b0 hb))
      split
      · next e hr => rw [hr] at this; simp at this
      · simp

lemma parseBackendsNewLB_bad : ∀ bs b, b ∈ bs → (urlParse b).isOk = false →
    (parseBackendsNewLB bs).isOk = false := by
  intro bs
  induction bs with
  | nil => intro b hb; simp at hb
  | cons b0 rest ih =>
    intro b hb hbad
    simp only [parseBackendsNewLB]
    split
    · simp
    · next u hp =>
      split
      · simp
      · next us hr =>
        rcases List.mem_cons.mp hb with hb0 | hbr
        · subst hb0; rw [hp] at hbad; simp at hbad
        · have := ih b hbr hbad
          rw [hr] at this
          simp at this

lemma foldl_addHeader_cons (k0 : String) (vs : List String) (k : String)
    (hne : k ≠ k0) : ∀ ws (d : Headers),
    List.foldl (fun d2 v => addHeader d2 k v) ((k0, vs) :: d) ws =
      (k0, vs) :: List.foldl (fun d2 v => addHeader d2 k v) d ws := by
  intro ws
  induction ws with
  | nil => intro d; rfl
  | cons w ws ih =>
    intro d
    simp only [List.foldl_cons]
    rw [show addHeader ((k0, vs) :: d) k w = (k0, vs) :: addHeader d k w by
      simp [addHeader, Ne.symm hne]]
    exact ih (addHeader d k w)

lemma copyHeaders_cons_skip : ∀ (src : Headers) (k0 : String) (vs : List String)
    (d : Headers), (∀ p ∈ src, p.1 ≠ k0) →
    copyHeaders src ((k0, vs) :: d) = (k0, vs) :: copyHeaders src d := by
  intro src
  induction src with
  | nil => intro k0 vs d _; rfl
  | cons kv rest ih =>
    intro k0 vs d hne
    simp only [copyHeaders, List.foldl_cons]
    rw [foldl_addHeader_cons k0 vs kv.1 (hne kv (List.mem_cons_self kv rest)) kv.2 d]
    exact ih k0 vs (List.foldl (fun d2 v => addHeader d2 kv.1 v) d kv.2)
      (fun p hp => hne p (List.mem_cons_of_mem kv hp))

lemma foldl_addHeader_single (k : String) : ∀ (ws us : List String),
    List.foldl (fun d2 v => addHeader d2 k v) [(k, us)] ws = [(k, us ++ ws)] := by
  intro ws
  induction ws with
  | nil => intro us; simp
  | cons w ws ih =>
    intro us
    simp only [List.foldl_cons]
    rw [show addHeader [(k, us)] k w = [(k, us ++ [w])] by simp [addHeader]]
    rw [ih (us ++ [w])]
    simp

/-- Copying a header map with pairwise-distinct keys and nonempty value
slices into an empty response-writer header map reproduces it exactly. -/
lemma copyHeaders_id : ∀ (src : Headers), (src.map Prod.fst).Nodup →
    (∀ p ∈ src, p.2 ≠ []) → copyHeaders src [] = src := by
  intro src
  induction src with
  | nil => intro _ _; rfl
  | cons kv rest ih =>
    intro hnd hne
    obtain ⟨k, ws⟩ := kv
    simp only [List.map_cons, List.nodup_cons] at hnd
    have hws : ws ≠ [] := hne (k, ws) (List.mem_cons_self _ _)
    have hsingle : List.foldl (fun d2 v => addHeader d2 k v) ([] : Headers) ws =
        [(k, ws)] := by
      cases ws with
      | nil => exact absurd rfl hws
      | cons w ws2 =>
        simp only [List.foldl_cons]
        rw [show addHeader ([] : Headers) k w = [(k, [w])] from rfl]
        rw [foldl_addHeader_single k ws2 [w]]
        simp
    have hskip : ∀ p ∈ rest, p.1 ≠ k := by
      intro p hp hpk
      exact hnd.1 (hpk ▸ List.mem_map_of_mem Prod.fst hp)
    show copyHeaders rest (List.foldl (fun d2 v => addHeader d2 k v) [] ws) =
      (k, ws) :: rest
    rw [hsingle]
    rw [copyHeaders_cons_skip rest k ws [] hskip]
    rw [ih hnd.2 (fun p hp => hne p (List.mem_cons_of_mem _ hp))]

example : urlParse "http://a" =
    .ok { emptyURL with scheme := "http", host := "a" } := by decide
example : urlParse "ftp://x" =
    .ok { emptyURL with scheme := "ftp", host := "x" } := by decide
example : urlParse "not a url" =
    .ok { emptyURL with path := "not a url" } := by decide
example : (urlParse "http://localhost:8081").isOk = true := by decide
example : urlString { emptyURL with scheme := "http", host := "a" } = "http://a" := by decide

/-- C2: for every input list of length 0 or 1, both constructors (`lb.New`
and `NewLB`) return the too-few-backends `ConfigurationError` and no
`LoadBalancer`; for lists of length at least 2 that particular check
passes — neither constructor ever returns the too-few-backends error. -/
theorem C2_min_backends (bs : List String) (t : Option Nat) :
    (bs.length < 2 →
      New bs t = .error .tooFewBackends ∧ NewLB bs t = .error .tooFewBackends) ∧
    (2 ≤ bs.length →
      New bs t ≠ .error .tooFewBackends ∧ NewLB bs t ≠ .error .tooFewBackends) := by
  constructor
  · intro hl
    exact ⟨by simp [New, hl], by simp [NewLB, hl]⟩
  · intro hl
    have hl2 : ¬ bs.length < 2 := Nat.not_lt.mpr hl
    constructor
    · simp only [New, if_neg hl2]
      split
      · next e heq =>
        intro hc
        cases hc
        exact parseBackendsNew_error_shape bs _ heq rfl
      · simp
    · simp only [NewLB, if_neg hl2]
      split
      · next e heq =>
        intro hc
        cases hc
        exact parseBackendsNewLB_error_shape bs _ heq rfl
      · simp

/-- Witness for C2 at concrete inputs: the empty list and a singleton are
rejected with the too-few-backends error by both constructors, and a
3-element list is not rejected by that check. -/
theorem C2_min_backends_witness :
    New [] none = .error .tooFewBackends ∧
    NewLB ["http://a"] none = .error .tooFewBackends ∧
    New bs3 none ≠ .error .tooFewBackends := by
  exact ⟨((C2_min_backends [] none).1 (by decide)).1,
         ((C2_min_backends ["http://a"] none).1 (by decide)).2,
         ((C2_min_backends bs3 none).2 (by decide)).1⟩

/-- C1 is false as stated: for the balancer over the three backends `bs3`,
the call with 0-indexed serial number `2 ^ 64` does not return the backend
at index `2 ^ 64 % 3 = 1` — the `uint64` cursor has wrapped and the code
returns the backend at index 0 instead. -/
theorem C1_counterexample :
    New bs3 none = .ok lb3 ∧
    serialBackend lb3 (2 ^ 64) ≠
      lb3.backends.getD ((2 ^ 64) % lb3.backends.length) emptyURL := by
  have hNew : New bs3 none = .ok lb3 := by decide
  refine ⟨hNew, ?_⟩
  have hshape := New_ok_shape bs3 none lb3 hNew
  have hc : lb3.counter < W64 := by rw [hshape.1, W64_eq]; omega
  have hidx := serialIdx_eq lb3 hc (2 ^ 64)
  rw [serialBackend_eq lb3 (2 ^ 64), hidx, hshape.1]
  have hlen : lb3.backends.length = 3 := by decide
  rw [hlen]
  have h0 : (0 + 2 ^ 64) % W64 % 3 = 0 := by rw [W64_eq]; decide
  have h1 : (2 : Nat) ^ 64 % 3 = 1 := by decide
  rw [h0, h1]
  decide

/-- C1 amended: the round-robin law holds for every call whose serial
number is below `2 ^ 64`, i.e. until the 64-bit cursor wraps: the `k`-th
call (0-indexed) of `getNextBackend` on a freshly constructed balancer
selects index `k mod N` and returns the backend at that index, so within
that range any `N` consecutive calls visit all `N` backends exactly once
in configured order. -/
theorem C1_round_robin_before_wrap (bs : List String) (t : Option Nat)
    (lb : LoadBalancer) (k : Nat) (hNew : New bs t = .ok lb)
    (hk : k < 2 ^ 64) :
    serialIdx lb k = k % lb.backends.length ∧
    serialBackend lb k = lb.backends.getD (k % lb.backends.length) emptyURL := by
  have hshape := New_ok_shape bs t lb hNew
  have hc : lb.counter < W64 := by rw [hshape.1, W64_eq]; omega
  have hidx := serialIdx_eq lb hc k
  rw [hshape.1] at hidx
  have hpow : (2 : Nat) ^ 64 = 18446744073709551616 := by norm_num
  have hmod : (0 + k) % W64 = k := by
    rw [W64_eq]
    rw [hpow] at hk
    omega
  rw [hmod] at hidx
  exact ⟨hidx, by rw [serialBackend_eq lb k, hidx]⟩

/-- Witness for the amended C1: on the concrete 3-backend balancer the
5th call (0-indexed) selects index 5 mod 3 = 2. -/
theorem C1_round_robin_before_wrap_witness :
    serialIdx lb3 5 = 5 % lb3.backends.length ∧
    serialBackend lb3 5 = lb3.backends.getD (5 % lb3.backends.length) emptyURL := by
  exact C1_round_robin_before_wrap bs3 none lb3 5 (by decide) (by decide)

/-- C8: every balancer successfully constructed by either constructor
(`lb.New` or `NewLB`) has at least two backends, the backend sequence is
never mutated by any number of selection calls, and the index
`getNextBackend` computes is always strictly below the backend count, so
the indexing operation can never fail. -/
theorem C8_cursor_safety (bs : List String) (t : Option Nat)
    (lb : LoadBalancer)
    (hNew : New bs t = .ok lb ∨ NewLB bs t = .ok lb) :
    2 ≤ lb.backends.length ∧
    (∀ k, (serialState lb k).backends = lb.backends) ∧
    (∀ k, serialIdx lb k < lb.backends.length) := by
  have hshape : lb.counter = 0 ∧ lb.backends.length = bs.length ∧
      2 ≤ bs.length := by
    cases hNew with
    | inl h => exact New_ok_shape bs t lb h
    | inr h => exact NewLB_ok_shape bs t lb h
  have hlen : 2 ≤ lb.backends.length := by rw [hshape.2.1]; exact hshape.2.2
  refine ⟨hlen, serialState_backends lb, ?_⟩
  intro k
  have hc : lb.counter < W64 := by rw [hshape.1, W64_eq]; omega
  rw [serialIdx_eq lb hc k]
  exact Nat.mod_lt _ (by omega)

/-- Witness for C8 at two concrete balancers: one built by `lb.New` over
three http URLs and one built by `NewLB` over a list `lb.New` rejects. -/
theorem C8_cursor_safety_witness :
    (2 ≤ lb3.backends.length ∧ serialIdx lb3 7 < lb3.backends.length) ∧
    (2 ≤ lbF.backends.length ∧ serialIdx lbF 7 < lbF.backends.length) := by
  have h1 := C8_cursor_safety bs3 none lb3 (Or.inl (by decide))
  have h2 := C8_cursor_safety bsF none lbF (Or.inr (by decide))
  exact ⟨⟨h1.1, h1.2.2 7⟩, ⟨h2.1, h2.2.2 7⟩⟩

/-- C10: the selection cursor is a 64-bit counter with wraparound — the
`k`-th overall call returns the backend index `(k mod 2^64) mod N` — and
at the wraparound point the round-robin cycle breaks for `N = 3`: calls
`2^64 - 1` and `2^64` both select index 0, a duplicate instead of the
successor in configured order. -/
theorem C10_wraparound :
    (∀ bs t lb k, New bs t = .ok lb →
      serialIdx lb k = (k % 2 ^ 64) % lb.backends.length) ∧
    serialIdx lb3 (2 ^ 64 - 1) = 0 ∧ serialIdx lb3 (2 ^ 64) = 0 ∧
    lb3.backends.length = 3 := by
  have hmain : ∀ bs t lb k, New bs t = .ok lb →
      serialIdx lb k = (k % 2 ^ 64) % lb.backends.length := by
    intro bs t lb k hNew
    have hshape := New_ok_shape bs t lb hNew
    have hc : lb.counter < W64 := by rw [hshape.1, W64_eq]; omega
    rw [serialIdx_eq lb hc k, hshape.1, Nat.zero_add]
    rw [show W64 = 2 ^ 64 from rfl]
  have hNew : New bs3 none = .ok lb3 := by decide
  have hlen : lb3.backends.length = 3 := by decide
  refine ⟨hmain, ?_, ?_, hlen⟩
  · rw [hmain bs3 none lb3 (2 ^ 64 - 1) hNew, hlen]
    decide
  · rw [hmain bs3 none lb3 (2 ^ 64) hNew, hlen]
    decide

/-- Witness for C10: the general wraparound law applied at call 4 on the
concrete balancer. -/
theorem C10_wraparound_witness :
    serialIdx lb3 4 = (4 % 2 ^ 64) % lb3.backends.length :=
  C10_wraparound.1 bs3 none lb3 4 (by decide)

/-- C3 is false as stated for `NewLB` (cmd/app/main.go): it accepts both a
non-http(s) scheme and a string that is not an absolute URL, because it
parses each backend but never checks the scheme — `url.Parse` succeeds on
both inputs. -/
theorem C3_counterexample :
    (NewLB ["ftp://x", "http://a"] none).isOk = true ∧
    (NewLB ["not a url", "http://a"] none).isOk = true := by decide

/-- C3 amended: the full validation holds only for `lb.New` — it rejects
every list containing a string that fails to parse or whose scheme is not
http/https, and both constructors succeed on two or more valid http(s)
URLs; `NewLB` rejects only strings that `url.Parse` itself rejects. -/
theorem C3_backend_validation :
    (∀ bs t b, b ∈ bs → badBackendStr b = true → (New bs t).isOk = false) ∧
    (∀ bs t, 2 ≤ bs.length → (∀ b ∈ bs, badBackendStr b = false) →
      (New bs t).isOk = true ∧ (NewLB bs t).isOk = true) ∧
    (∀ bs t b, b ∈ bs → (urlParse b).isOk = false → (NewLB bs t).isOk = false) := by
  refine ⟨?_, ?_, ?_⟩
  · intro bs t b hb hbad
    simp only [New]
    split
    · simp
    · have hparse := parseBackendsNew_bad bs b hb hbad
      split
      · simp
      · next us hr => rw [hr] at hparse; simp at hparse
  · intro bs t hlen hall
    have hnew := parseBackendsNew_all_good bs hall
    have hlball : ∀ b ∈ bs, (urlParse b).isOk = true := by
      intro b hb
      have hgood := hall b hb
      simp only [badBackendStr] at hgood
      split at hgood
      · exact absurd hgood (by simp)
      · next u heq => rw [heq]; simp
    have hnewlb := parseBackendsNewLB_all_parse bs hlball
    have hl2 : ¬ bs.length < 2 := Nat.not_lt.mpr hlen
    constructor
    · simp only [New, if_neg hl2]
      split
      · next e hr => rw [hr] at hnew; simp at hnew
      · simp
    · simp only [NewLB, if_neg hl2]
      split
      · next e hr => rw [hr] at hnewlb; simp at hnewlb
      · simp
  · intro bs t b hb hbad
    simp only [NewLB]
    split
    · simp
    · have hparse := parseBackendsNewLB_bad bs b hb hbad
      split
      · simp
      · next us hr => rw [hr] at hparse; simp at hparse

/-- Witness for the amended C3: `lb.New` rejects a non-URL string and a
non-http(s) scheme; both constructors succeed on three valid http URLs. -/
theorem C3_backend_validation_witness :
    (New ["not a url", "http://a"] none).isOk = false ∧
    (New ["ftp://x", "http://a"] none).isOk = false ∧
    (New bs3 none).isOk = true ∧ (NewLB bs3 none).isOk = true := by
  refine ⟨C3_backend_validation.1 ["not a url", "http://a"] none "not a url"
            (by decide) (by decide),
          C3_backend_validation.1 ["ftp://x", "http://a"] none "ftp://x"
            (by decide) (by decide),
          (C3_backend_validation.2.1 bs3 none (by decide) (by decide)).1,
          (C3_backend_validation.2.1 bs3 none (by decide) (by decide)).2⟩

/-- C4: when the upstream call fails, the caller receives the 504
Gateway-Timeout response with the message stating the elapsed whole
seconds exactly when the error is a deadline-exceeded error
(`errors.Is(err, context.DeadlineExceeded)`); no other upstream failure
takes this branch. -/
theorem C4_timeout_classification (lb : LoadBalancer) (r : InRequest)
    (n : Nat) (b : Bool)
    (hok : (buildOutbound (getNextBackend lb).1 r).isOk = true) :
    ((ServeHTTP lb r (.fail b) n).1 =
        .httpError ("Backend request timed out after " ++ toString n ++ "s") 504)
      ↔ b = true := by
  obtain ⟨req, hreq⟩ : ∃ req, buildOutbound (getNextBackend lb).1 r = .ok req := by
    cases hb : buildOutbound (getNextBackend lb).1 r with
    | error e => rw [hb] at hok; simp at hok
    | ok req => exact ⟨req, rfl⟩
  rcases hpair : getNextBackend lb with ⟨target, lb2⟩
  rw [hpair] at hreq
  simp only [ServeHTTP, hpair, hreq]
  cases b
  · simp
  · simp

/-- Witness for C4: a deadline-exceeded upstream failure after one elapsed
second on the concrete balancer yields the 504 timeout response. -/
theorem C4_timeout_classification_witness :
    (ServeHTTP lb3 req0 (.fail true) 1).1 =
      .httpError ("Backend request timed out after " ++ toString 1 ++ "s") 504 :=
  (C4_timeout_classification lb3 req0 1 true (by decide)).mpr rfl

/-- C5: every upstream error that is not deadline-exceeded (DNS failure,
connection refused, reset, inbound-side cancellation — all carry
`deadlineExceeded = false`) yields the generic 502 service-unavailable
response, never 504 or 500; and every upstream response, whatever its
status code, is relayed and never classified as an engine failure. -/
theorem C5_upstream_unavailable (lb : LoadBalancer) (r : InRequest) (n : Nat)
    (hok : (buildOutbound (getNextBackend lb).1 r).isOk = true) :
    (ServeHTTP lb r (.fail false) n).1 =
        .httpError "Service temporarily unavailable" 502 ∧
    (∀ m c, (ServeHTTP lb r (.fail false) n).1 = .httpError m c → c = 502) ∧
    (∀ s hs body, (ServeHTTP lb r (.resp s hs body) n).1 =
        .relayed s (copyHeaders hs []) body) := by
  obtain ⟨req, hreq⟩ : ∃ req, buildOutbound (getNextBackend lb).1 r = .ok req := by
    cases hb : buildOutbound (getNextBackend lb).1 r with
    | error e => rw [hb] at hok; simp at hok
    | ok req => exact ⟨req, rfl⟩
  rcases hpair : getNextBackend lb with ⟨target, lb2⟩
  rw [hpair] at hreq
  simp only [ServeHTTP, hpair, hreq]
  refine ⟨trivial, ?_, fun s hs body => trivial⟩
  intro m c hc
  cases hc
  rfl

/-- Witness for C5: a non-deadline failure yields the 502 response, and a
404 upstream response is relayed as a 404, not treated as a failure. -/
theorem C5_upstream_unavailable_witness :
    (ServeHTTP lb3 req0 (.fail false) 0).1 =
        .httpError "Service temporarily unavailable" 502 ∧
    (ServeHTTP lb3 req0 (.resp 404 [] []) 0).1 = .relayed 404 [] [] := by
  have h := C5_upstream_unavailable lb3 req0 0 (by decide)
  exact ⟨h.1, h.2.2 404 [] []⟩

/-- C6: for every successful upstream response whose header map has
pairwise-distinct keys and nonempty value slices (as Go's `http.Header`
guarantees), `ServeHTTP` relays exactly the upstream status code, the full
header set with every value of each multi-valued header preserved, and the
byte-for-byte identical body. -/
theorem C6_passthrough_fidelity (lb : LoadBalancer) (r : InRequest)
    (n s : Nat) (hs : Headers) (body : List UInt8)
    (hok : (buildOutbound (getNextBackend lb).1 r).isOk = true)
    (hnd : (hs.map Prod.fst).Nodup) (hne : ∀ p ∈ hs, p.2 ≠ []) :
    (ServeHTTP lb r (.resp s hs body) n).1 = .relayed s hs body := by
  obtain ⟨req, hreq⟩ : ∃ req, buildOutbound (getNextBackend lb).1 r = .ok req := by
    cases hb : buildOutbound (getNextBackend lb).1 r with
    | error e => rw [hb] at hok; simp at hok
    | ok req => exact ⟨req, rfl⟩
  rcases hpair : getNextBackend lb with ⟨target, lb2⟩
  rw [hpair] at hreq
  simp only [ServeHTTP, hpair, hreq]
  rw [copyHeaders_id hs hnd hne]

/-- Witness for C6: a 201 upstream response with the multi-valued header
`X-Custom: a`, `X-Custom: b` and a 10-byte body is relayed verbatim. -/
theorem C6_passthrough_fidelity_witness :
    (ServeHTTP lb3 req0
        (.resp 201 [("X-Custom", ["a", "b"])] [0, 1, 2, 3, 4, 5, 6, 7, 8, 9]) 0).1 =
      .relayed 201 [("X-Custom", ["a", "b"])] [0, 1, 2, 3, 4, 5, 6, 7, 8, 9] :=
  C6_passthrough_fidelity lb3 req0 0 201 [("X-Custom", ["a", "b"])]
    [0, 1, 2, 3, 4, 5, 6, 7, 8, 9] (by decide) (by decide) (by decide)

lemma urlString_schemeHost (t : URL) (h1 : t.oPart = "") (h2 : t.path = "")
    (h3 : t.userinfo = none) (h4 : t.rawQuery = "") (h5 : t.forceQuery = false)
    (h6 : t.fragment = "") (h7 : t.scheme ≠ "") (h8 : t.host ≠ "") :
    urlString t = t.scheme ++ "://" ++ t.host := by
  simp only [urlString, h1, h2, h3, h4, h5, h6]
  simp [h7, h8]
  have hcat : (":" : String) ++ ("//" ++ t.host) = "://" ++ t.host := by
    rw [← String.append_assoc]
    rfl
  rw [String.append_assoc t.scheme ":" ("//" ++ t.host), hcat,
      String.append_assoc t.scheme "://" t.host]

/-- C7: the outbound request `ServeHTTP` builds carries the incoming
method unchanged, the header set cloned verbatim from the incoming request
(nothing added, removed or altered — hop-by-hop and cookie headers
included), and the URL obtained by appending the raw incoming
`RequestURI` (path plus query string) to the selected backend's string
form; for a backend that is a plain scheme+host URL this is exactly the
incoming path and query carried onto the backend's scheme and host. -/
theorem C7_outbound_request (lb : LoadBalancer) (t : URL) (r : InRequest)
    (req : OutRequest) (_ht : t = (getNextBackend lb).1) (hm : r.method ≠ "")
    (hreq : buildOutbound t r = .ok req) :
    req.method = r.method ∧ req.headers = r.headers ∧
    req.urlStr = urlString t ++ r.requestURI ∧
    (t.oPart = "" → t.path = "" → t.userinfo = none → t.rawQuery = "" →
     t.forceQuery = false → t.fragment = "" → t.scheme ≠ "" → t.host ≠ "" →
     req.urlStr = t.scheme ++ "://" ++ t.host ++ r.requestURI) := by
  simp only [buildOutbound, if_neg hm] at hreq
  split at hreq
  · exact absurd hreq (by simp)
  · split at hreq
    · exact absurd hreq (by simp)
    · next u heq =>
      cases hreq
      refine ⟨rfl, rfl, rfl, ?_⟩
      intro h1 h2 h3 h4 h5 h6 h7 h8
      show urlString t ++ r.requestURI = t.scheme ++ "://" ++ t.host ++ r.requestURI
      rw [urlString_schemeHost t h1 h2 h3 h4 h5 h6 h7 h8]

/-- Witness for C7: on the concrete balancer, the outbound request for
`req0` keeps the GET method and the Cookie header verbatim and targets
`http://a/x?q=1` — the backend's scheme and host with the incoming path
and query appended unmodified. -/
theorem C7_outbound_request_witness :
    buildOutbound (getNextBackend lb3).1 req0 = .ok outReq0 ∧
    outReq0.method = req0.method ∧ outReq0.headers = req0.headers ∧
    outReq0.urlStr =
      (getNextBackend lb3).1.scheme ++ "://" ++ (getNextBackend lb3).1.host ++
        req0.requestURI := by
  have hreq : buildOutbound (getNextBackend lb3).1 req0 = .ok outReq0 := by decide
  have h := C7_outbound_request lb3 (getNextBackend lb3).1 req0 outReq0 rfl
    (by decide) hreq
  exact ⟨hreq, h.1, h.2.1,
         h.2.2.2 (by decide) (by decide) (by decide) (by decide) (by decide)
           (by decide) (by decide) (by decide)⟩

/-- C9: the shutdown protocol of `server.Run` — the grace period handed to
`srv.Shutdown` is exactly 5 seconds; when shutdown completes within the
grace period `Run` returns nil (clean stop, zero exit); when the grace
period elapses first, `Run` returns the wrapped shutdown error (the
process exit then aborts any request still in flight); and a listener
failure is returned to the process exit path without waiting for a
signal. -/
theorem C9_shutdown_protocol :
    shutdownGraceSeconds = 5 ∧
    (∀ sd e, Run (.listenFailed e) sd = some ("server failed: " ++ e)) ∧
    (∀ sd, Run .interrupted sd = none ↔ sd = none) ∧
    (∀ e, Run .interrupted (some e) = some ("shutdown error: " ++ e)) := by
  refine ⟨rfl, fun sd e => rfl, ?_, fun e => rfl⟩
  intro sd
  cases sd with
  | none => simp [Run]
  | some e => simp [Run]
